import Mathlib

/-!
Verification development for the hexo-alist-movie-plugin media classifier.

The JavaScript sources are embedded shallowly: strings are lists of
characters, JavaScript regular expressions are compiled by hand into
backtracking character scanners, `Array.prototype.sort` (stable since
ES2019) is modelled by a stable insertion sort, JavaScript `null` /
`undefined` number fields become `Option Nat`, and JavaScript truthiness
(`0`, `""`, `null`, `undefined` are falsy) is made explicit.  Each
definition carries a comment naming the source function or regex it
embeds.
-/

abbrev Chars := List Char

/-- Numeric value of an ASCII digit character. -/
def digitVal (c : Char) : Nat := c.toNat - 48

/-- JavaScript whitespace class `\s` (the members that occur in practice:
ASCII whitespace, NBSP, ideographic space, BOM). -/
def isSpaceJS (c : Char) : Bool :=
  c = ' ' || c = '\t' || c = '\n' || c = '\r' || c = '\x0b' || c = '\x0c' ||
  c = ' ' || c = '　' || c = '﻿'

/-- JavaScript word-character class `\w` = `[A-Za-z0-9_]` (ASCII only). -/
def isWordChar (c : Char) : Bool :=
  ('a' ≤ c && c ≤ 'z') || ('A' ≤ c && c ≤ 'Z') || c.isDigit || c = '_'

/-- JavaScript `\b` word boundary between two adjacent positions
(`none` = start/end of input). -/
def boundaryB (a b : Option Char) : Bool :=
  (a.map isWordChar).getD false != (b.map isWordChar).getD false

/-- Line terminators that the JavaScript `.` metacharacter does not match. -/
def isNewlineJS (c : Char) : Bool :=
  c = '\n' || c = '\r' || c = ' ' || c = ' '

/-- Greedy `(\d{1,2})` with backtracking: try two digits, then one, feeding
the continuation the value, the last consumed character and the rest. -/
def digits12K (k : Nat → Char → Chars → Option α) : Chars → Option α
  | a :: b :: rest =>
    if a.isDigit then
      if b.isDigit then
        match k (10 * digitVal a + digitVal b) b rest with
        | some r => some r
        | none => k (digitVal a) a (b :: rest)
      else k (digitVal a) a (b :: rest)
    else none
  | [a] => if a.isDigit then k (digitVal a) a [] else none
  | [] => none

/-- Greedy `(\d{1,3})` with backtracking: try three digits, then two, then one. -/
def digits13K (k : Nat → Char → Chars → Option α) : Chars → Option α
  | a :: b :: c :: rest =>
    if a.isDigit then
      if b.isDigit then
        if c.isDigit then
          match k (100 * digitVal a + 10 * digitVal b + digitVal c) c rest with
          | some r => some r
          | none =>
            match k (10 * digitVal a + digitVal b) b (c :: rest) with
            | some r => some r
            | none => k (digitVal a) a (b :: c :: rest)
        else
          match k (10 * digitVal a + digitVal b) b (c :: rest) with
          | some r => some r
          | none => k (digitVal a) a (b :: c :: rest)
      else k (digitVal a) a (b :: rest)
    else none
  | [a, b] =>
    if a.isDigit then
      if b.isDigit then
        match k (10 * digitVal a + digitVal b) b [] with
        | some r => some r
        | none => k (digitVal a) a [b]
      else k (digitVal a) a [b]
    else none
  | [a] => if a.isDigit then k (digitVal a) a [] else none
  | [] => none

/-- Greedy `\d+` with backtracking (longest run first), feeding the
continuation the last consumed digit and the rest. -/
def digitsPlusK (k : Char → Chars → Option α) : Chars → Option α
  | c :: rest =>
    if c.isDigit then
      match digitsPlusK k rest with
      | some r => some r
      | none => k c rest
    else none
  | [] => none

/-- Case-insensitive literal (pattern given in lowercase); returns the rest. -/
def litCI : Chars → Chars → Option Chars
  | [], s => some s
  | p :: ps, c :: cs => if c.toLower = p then litCI ps cs else none
  | _ :: _, [] => none

/-- Case-insensitive literal returning the last consumed character and the rest
(the pattern must be nonempty). -/
def litCIlast : Chars → Chars → Option (Char × Chars)
  | [], _ => none
  | [p], c :: cs => if c.toLower = p then some (c, cs) else none
  | p :: q :: ps, c :: cs => if c.toLower = p then litCIlast (q :: ps) cs else none
  | _ :: _, [] => none

/-- Case-insensitive literal returning the consumed original characters. -/
def litCIcap : Chars → Chars → Option (Chars × Chars)
  | [], s => some ([], s)
  | p :: ps, c :: cs =>
    if c.toLower = p then (litCIcap ps cs).map (fun tr => (c :: tr.1, tr.2)) else none
  | _ :: _, [] => none

/-- Ordered alternation of case-insensitive literals (no trailing constraint). -/
def tryLitsCI : List Chars → Chars → Option (Char × Chars)
  | [], _ => none
  | alt :: alts, cs =>
    match litCIlast alt cs with
    | some r => some r
    | none => tryLitsCI alts cs

/-- Ordered alternation of case-insensitive literals, each followed by a `\b`
check against the token's own last character (regex alternation backtracks to
the next alternative when the boundary fails); the captured token keeps the
input's original casing. -/
def tryTokenAltsB : List Chars → Chars → Option (Chars × Char × Chars)
  | [], _ => none
  | alt :: alts, cs =>
    match litCIcap alt cs with
    | some (tok, rest) =>
      match tok.getLast? with
      | some lc =>
        if boundaryB (some lc) rest.head? then some (tok, lc, rest)
        else tryTokenAltsB alts cs
      | none => tryTokenAltsB alts cs
    | none => tryTokenAltsB alts cs

/-- First match of a position matcher over all start positions, left to right,
threading the previous character (for lookbehind and `\b`).  This is the
semantics of JavaScript `String.prototype.match` with a non-global regex. -/
def scanFirst (m : Option Char → Chars → Option α) : Option Char → Chars → Option α
  | prev, [] => m prev []
  | prev, c :: rest =>
    match m prev (c :: rest) with
    | some r => some r
    | none => scanFirst m (some c) rest

/-- Global `String.prototype.replace`: scan left to right; on a match emit the
replacement and continue after the match (the previous character for later
`\b` checks is the last character of the match, as in the original string);
otherwise keep one character and advance.  All matchers used here consume at
least one character, so fuel = input length suffices. -/
def replaceScan (m : Option Char → Chars → Option (Chars × Char × Chars)) :
    Nat → Option Char → Chars → Chars
  | 0, _, s => s
  | _ + 1, _, [] => []
  | fuel + 1, prev, c :: rest =>
    match m prev (c :: rest) with
    | some (rep, lastc, rest') => rep ++ replaceScan m fuel (some lastc) rest'
    | none => c :: replaceScan m fuel (some c) rest

/-- Global removal for matchers that ignore the previous character. -/
def removeAllNoPrev (m : Chars → Option (Char × Chars)) (s : Chars) : Chars :=
  replaceScan (fun _ cs => (m cs).map (fun r => (([] : Chars), r.1, r.2))) s.length none s

/-- One maximal nonempty run of characters satisfying `p`; returns the last
character of the run and the rest. -/
def takeRun (p : Char → Bool) : Chars → Option (Char × Chars)
  | c :: rest =>
    if p c then
      match takeRun p rest with
      | some r => some r
      | none => some (c, rest)
    else none
  | [] => none

/-- Lazy `.*?` up to the first character in `closers` (and `.` does not match
line terminators); returns the closer and the rest after it. -/
def lazyCloseScan (closers : List Char) : Chars → Option (Char × Chars)
  | c :: rest =>
    if closers.contains c then some (c, rest)
    else if isNewlineJS c then none
    else lazyCloseScan closers rest
  | [] => none

/-- JavaScript `String.prototype.trim` on character lists. -/
def jsTrimL (s : Chars) : Chars :=
  ((s.dropWhile isSpaceJS).reverse.dropWhile isSpaceJS).reverse

/-- Replace every maximal run of `[\.\-_]`-class characters (here
parameterised by the class) with a single space, globally. -/
def runsToSpace (cls : Char → Bool) (s : Chars) : Chars :=
  replaceScan (fun _ cs => (takeRun cls cs).map (fun r => ([' '], r.1, r.2))) s.length none s

/-- Separator class `[\.\-_]` shared by both title cleaners. -/
def isSepChar (c : Char) : Bool := c = '.' || c = '-' || c = '_'

/-- Collapse `\s+` runs to a single space, globally. -/
def collapseSpaces (s : Chars) : Chars := runsToSpace isSpaceJS s

/-- Separator runs `[\.\-_]+` to a single space, globally. -/
def sepsToSpace (s : Chars) : Chars := runsToSpace isSepChar s

/-- JavaScript `s || d` for an optional string field (`undefined` and `""` are falsy). -/
def jsOrStr (o : Option String) (d : String) : String :=
  match o with
  | some s => if s = "" then d else s
  | none => d

/-- JavaScript truthiness of an optional number (`null`/`undefined` and `0` are falsy). -/
def jsTruthyNat (o : Option Nat) : Bool :=
  match o with
  | some n => n ≠ 0
  | none => false

/-- JavaScript `n || 1` for a number field. -/
def jsOr1 (n : Nat) : Nat := if n = 0 then 1 else n

/-- Substring containment, the semantics of `String.prototype.includes`. -/
def containsSub (pat : Chars) : Chars → Bool
  | [] => pat.isEmpty
  | s@(_ :: rest) => pat.isPrefixOf s || containsSub pat rest

/-- Lowercasing a character list (`String.prototype.toLowerCase`, ASCII part). -/
def toLowerL (s : Chars) : Chars := s.map Char.toLower

/-- JavaScript `String.prototype.split` with a single-character separator
(`"".split(sep)` is `[""]`). -/
def splitOnChar (sep : Char) : Chars → List Chars
  | [] => [[]]
  | c :: rest =>
    let r := splitOnChar sep rest
    if c = sep then [] :: r
    else
      match r with
      | h :: t => (c :: h) :: t
      | [] => [[c]]

/-- JavaScript `Array.prototype.join` with a single-character separator. -/
def joinChar (sep : Char) : List Chars → Chars
  | [] => []
  | [x] => x
  | x :: xs => x ++ sep :: joinChar sep xs

/-- Stable insertion: `x` goes before the first element `y` with `le x y`,
so elements equivalent to `x` that were originally to its right stay right. -/
def insertLe (le : α → α → Bool) (x : α) : List α → List α
  | [] => [x]
  | y :: ys => if le x y then x :: y :: ys else y :: insertLe le x ys

/-- Stable sort modelling `Array.prototype.sort` (stable per ES2019).  All
comparators in this code base are total preorders induced by numeric keys,
for which every stable sort returns the same list. -/
def jsSortBy (le : α → α → Bool) (l : List α) : List α := l.foldr (insertLe le) []

theorem jsSortBy_of_pairwise (le : α → α → Bool) :
    ∀ l : List α, l.Pairwise (le · · = true) → jsSortBy le l = l := by
  intro l h
  induction l with
  | nil => rfl
  | cons x xs ih =>
    rcases List.pairwise_cons.mp h with ⟨hx, hxs⟩
    show insertLe le x (jsSortBy le xs) = x :: xs
    rw [ih hxs]
    cases xs with
    | nil => rfl
    | cons y ys => simp [insertLe, hx y (by simp)]

theorem mem_insertLe (le : α → α → Bool) (x z : α) :
    ∀ m : List α, z ∈ insertLe le x m ↔ z = x ∨ z ∈ m := by
  intro m
  induction m with
  | nil => simp [insertLe]
  | cons y ys ih =>
    by_cases h : le x y = true
    · simp [insertLe, h]
    · simp only [insertLe, h, Bool.false_eq_true, if_false, List.mem_cons, ih]
      tauto

theorem jsSortBy_pairwise (le : α → α → Bool)
    (htrans : ∀ a b c, le a b = true → le b c = true → le a c = true)
    (htotal : ∀ a b, le a b = false → le b a = true) :
    ∀ l : List α, (jsSortBy le l).Pairwise (le · · = true) := by
  have key : ∀ (x : α) (m : List α), m.Pairwise (le · · = true) →
      (insertLe le x m).Pairwise (le · · = true) := by
    intro x m
    induction m with
    | nil => intro _; simp [insertLe]
    | cons y ys ihm =>
      intro hp
      rcases List.pairwise_cons.mp hp with ⟨hy, hys⟩
      by_cases hxy : le x y = true
      · simp only [insertLe, hxy, if_true]
        refine List.pairwise_cons.mpr ⟨?_, hp⟩
        intro z hz
        rcases List.mem_cons.mp hz with hz | hz
        · exact hz ▸ hxy
        · exact htrans x y z hxy (hy _ hz)
      · simp only [insertLe, hxy, Bool.false_eq_true, if_false]
        refine List.pairwise_cons.mpr ⟨?_, ihm hys⟩
        intro z hz
        rcases (mem_insertLe le x z ys).mp hz with hz | hz
        · exact hz ▸ htotal x y (by revert hxy; cases le x y <;> simp)
        · exact hy _ hz
  intro l
  induction l with
  | nil => exact List.Pairwise.nil
  | cons x xs ih => exact key x (jsSortBy le xs) ih

/-!
ContentDetector (src/content-detector.js).
-/

/-- One item of an Alist directory listing as the detectors consume it. -/
structure AItem where
  name : String
  is_dir : Bool
  url : Option String := none
  sign : Option String := none
deriving DecidableEq

/-- The final match of `/\.[^.]+$/`, i.e. the extension after the last dot
when it is nonempty (a trailing dot has no match). -/
def extSuffix (s : Chars) : Option Chars :=
  let r := s.reverse
  let pre := r.takeWhile (fun c => c ≠ '.')
  if pre.length = r.length then none
  else if pre.isEmpty then none
  else some pre.reverse

/-- `title.replace(/\.[^.]+$/, '')` — strip the file extension. -/
def stripExtL (s : Chars) : Chars :=
  match extSuffix s with
  | some suf => s.take (s.length - (suf.length + 1))
  | none => s

/-- `ContentDetector.getFileExtension`: the `/\.[^.]+$/` match lowercased, else `""`. -/
def cdGetFileExtension (s : String) : String :=
  match extSuffix s.toList with
  | some suf => String.mk ('.' :: toLowerL suf)
  | none => ""

/-- The constructor's hardcoded `videoExtensions` list (no preset overrides it). -/
def cdVideoExtensions : List String :=
  [".mp4", ".mkv", ".avi", ".mov", ".wmv", ".flv", ".webm", ".m4v", ".ts", ".m2ts"]

/-- `ContentDetector.isVideoFile`. -/
def cdIsVideoFile (s : String) : Bool := cdVideoExtensions.contains (cdGetFileExtension s)

/-- Position matcher of `/S(\d{1,2})E(\d{1,2})/i`. -/
def cdP1At : Chars → Option (Nat × Nat)
  | c :: rest =>
    if c.toLower = 's' then
      digits12K (fun d1 _ rest' =>
        match rest' with
        | e :: rest'' =>
          if e.toLower = 'e' then digits12K (fun d2 _ _ => some (d1, d2)) rest''
          else none
        | [] => none) rest
    else none
  | [] => none

/-- Position matcher of `/第(\d{1,2})季第(\d{1,2})集/`. -/
def cdP2At : Chars → Option (Nat × Nat)
  | c :: rest =>
    if c = '第' then
      digits12K (fun d1 _ r1 =>
        match r1 with
        | j :: d :: r2 =>
          if j = '季' && d = '第' then
            digits12K (fun d2 _ r3 =>
              match r3 with
              | k :: _ => if k = '集' then some (d1, d2) else none
              | [] => none) r2
          else none
        | _ => none) rest
    else none
  | [] => none

/-- Position matcher of `/Season\s*(\d{1,2})\s*Episode\s*(\d{1,2})/i`. -/
def cdP3At (cs : Chars) : Option (Nat × Nat) :=
  match litCI "season".toList cs with
  | some r1 =>
    digits12K (fun d1 _ r2 =>
      match litCI "episode".toList (r2.dropWhile isSpaceJS) with
      | some r3 => digits12K (fun d2 _ _ => some (d1, d2)) (r3.dropWhile isSpaceJS)
      | none => none) (r1.dropWhile isSpaceJS)
  | none => none

/-- Position matcher of `/(?<!\d)(\d{1,2})x(\d{1,2})(?!\d)/` (case-sensitive;
the lookbehind inspects the character before the start position). -/
def cdP4At (prev : Option Char) (cs : Chars) : Option (Nat × Nat) :=
  if (prev.map Char.isDigit).getD false then none
  else
    digits12K (fun d1 _ r1 =>
      match r1 with
      | x :: r2 =>
        if x = 'x' then
          digits12K (fun d2 _ r3 =>
            if (r3.head?.map Char.isDigit).getD false then none else some (d1, d2)) r2
        else none
      | [] => none) cs

/-- Position matcher of `/\[(\d{1,2})\]\[(\d{1,2})\]/`. -/
def cdP5At : Chars → Option (Nat × Nat)
  | c :: rest =>
    if c = '[' then
      digits12K (fun d1 _ r1 =>
        match r1 with
        | b1 :: b2 :: r2 =>
          if b1 = ']' && b2 = '[' then
            digits12K (fun d2 _ r3 =>
              match r3 with
              | b3 :: _ => if b3 = ']' then some (d1, d2) else none
              | [] => none) r2
          else none
        | _ => none) rest
    else none
  | [] => none

/-- First match of the `S..E..` pattern over a whole string (pattern 1 of
`extractSeasonEpisode`). -/
def cdP1 (s : String) : Option (Nat × Nat) := scanFirst (fun _ cs => cdP1At cs) none s.toList

/-- The ordered combined season-episode pattern list of `extractSeasonEpisode`. -/
def cdCombinedPatterns : List (String → Option (Nat × Nat)) :=
  [ cdP1,
    fun s => scanFirst (fun _ cs => cdP2At cs) none s.toList,
    fun s => scanFirst (fun _ cs => cdP3At cs) none s.toList,
    fun s => scanFirst cdP4At none s.toList,
    fun s => scanFirst (fun _ cs => cdP5At cs) none s.toList ]

/-- Position matcher of `/E(\d{1,2})/i`. -/
def cdE1At : Chars → Option Nat
  | c :: rest => if c.toLower = 'e' then digits12K (fun d _ _ => some d) rest else none
  | [] => none

/-- Position matcher of `/第(\d{1,2})集/`. -/
def cdE2At : Chars → Option Nat
  | c :: rest =>
    if c = '第' then
      digits12K (fun d _ r =>
        match r with
        | k :: _ => if k = '集' then some d else none
        | [] => none) rest
    else none
  | [] => none

/-- Position matcher of `/Episode\s*(\d{1,2})/i`. -/
def cdE3At (cs : Chars) : Option Nat :=
  match litCI "episode".toList cs with
  | some r => digits12K (fun d _ _ => some d) (r.dropWhile isSpaceJS)
  | none => none

/-- The ordered episode-only pattern list of `extractSeasonEpisode`. -/
def cdEpisodeOnlyPatterns : List (String → Option Nat) :=
  [ fun s => scanFirst (fun _ cs => cdE1At cs) none s.toList,
    fun s => scanFirst (fun _ cs => cdE2At cs) none s.toList,
    fun s => scanFirst (fun _ cs => cdE3At cs) none s.toList ]

/-- The combined-pattern loop of `extractSeasonEpisode`: a match with
season > 50 or episode > 200 is a false positive and `continue`s to the
next pattern. -/
def cdTryCombined : List (String → Option (Nat × Nat)) → String → Option (Nat × Nat)
  | [], _ => none
  | p :: ps, s =>
    match p s with
    | some (se, ep) => if se > 50 || ep > 200 then cdTryCombined ps s else some (se, ep)
    | none => cdTryCombined ps s

/-- The episode-only loop of `extractSeasonEpisode`: episode > 200 `continue`s. -/
def cdTryEpisodeOnly : List (String → Option Nat) → String → Option Nat
  | [], _ => none
  | p :: ps, s =>
    match p s with
    | some ep => if ep > 200 then cdTryEpisodeOnly ps s else some ep
    | none => cdTryEpisodeOnly ps s

/-- Result record of `extractSeasonEpisode` (`null` becomes `none`). -/
structure CDSeasonEpisode where
  season : Option Nat
  episode : Option Nat
deriving DecidableEq

/-- `ContentDetector.extractSeasonEpisode`. -/
def cdExtractSeasonEpisode (filename : String) : CDSeasonEpisode :=
  match cdTryCombined cdCombinedPatterns filename with
  | some (se, ep) => ⟨some se, some ep⟩
  | none =>
    match cdTryEpisodeOnly cdEpisodeOnlyPatterns filename with
    | some ep => ⟨none, some ep⟩
    | none => ⟨none, none⟩

/-- Position matcher of `/[\(\（]\d{4}[\)\）]/`. -/
def cdYearParenAt : Chars → Option (Char × Chars)
  | o :: a :: b :: c :: d :: cl :: rest =>
    if (o = '(' || o = '（') && a.isDigit && b.isDigit && c.isDigit && d.isDigit &&
       (cl = ')' || cl = '）')
    then some (cl, rest) else none
  | _ => none

/-- Position matcher of `/\d{3,4}[pP]/` (greedy: four digits tried first). -/
def cdResAt : Chars → Option (Char × Chars)
  | a :: b :: c :: rest =>
    if a.isDigit && b.isDigit && c.isDigit then
      match rest with
      | d :: p :: rest2 =>
        if d.isDigit && (p = 'p' || p = 'P') then some (p, rest2)
        else if d = 'p' || d = 'P' then some (d, p :: rest2)
        else none
      | [d] => if d = 'p' || d = 'P' then some (d, []) else none
      | [] => none
    else none
  | _ => none

/-- Position matcher of `/[xX]26[45]/`. -/
def cdX26At : Chars → Option (Char × Chars)
  | x :: a :: b :: c :: rest =>
    if (x = 'x' || x = 'X') && a = '2' && b = '6' && (c = '4' || c = '5') then some (c, rest)
    else none
  | _ => none

/-- Position matcher of `/[hH]26[45]/`. -/
def cdH26At : Chars → Option (Char × Chars)
  | h :: a :: b :: c :: rest =>
    if (h = 'h' || h = 'H') && a = '2' && b = '6' && (c = '4' || c = '5') then some (c, rest)
    else none
  | _ => none

/-- Alternatives of `/AAC|AC3|DTS|TrueHD/gi`, in pattern order. -/
def cdAudioLits : List Chars := ["aac".toList, "ac3".toList, "dts".toList, "truehd".toList]

/-- Alternatives of `/BluRay|WEB-DL|HDTV|DVDRip/gi`, in pattern order. -/
def cdSourceLits : List Chars := ["bluray".toList, "web-dl".toList, "hdtv".toList, "dvdrip".toList]

/-- Position matcher of `/S\d{1,2}E\d{1,2}/gi`. -/
def cdSEAt : Chars → Option (Char × Chars)
  | c :: rest =>
    if c.toLower = 's' then
      digits12K (fun _ _ r1 =>
        match r1 with
        | e :: r2 =>
          if e.toLower = 'e' then digits12K (fun _ lc r3 => some (lc, r3)) r2 else none
        | [] => none) rest
    else none
  | [] => none

/-- Position matcher of `/第\d{1,2}季第\d{1,2}集/g`. -/
def cdCjkSEAt : Chars → Option (Char × Chars)
  | c :: rest =>
    if c = '第' then
      digits12K (fun _ _ r1 =>
        match r1 with
        | j :: d :: r2 =>
          if j = '季' && d = '第' then
            digits12K (fun _ _ r3 =>
              match r3 with
              | k :: r4 => if k = '集' then some ('集', r4) else none
              | [] => none) r2
          else none
        | _ => none) rest
    else none
  | [] => none

/-- `ContentDetector.extractTitle` on character lists: the nine cleaning
statements of the source, in order. -/
def cdExtractTitleL (s : Chars) : Chars :=
  let t := stripExtL s
  let t := removeAllNoPrev cdYearParenAt t
  let t := removeAllNoPrev cdResAt t
  let t := removeAllNoPrev cdX26At t
  let t := removeAllNoPrev cdH26At t
  let t := removeAllNoPrev (tryLitsCI cdAudioLits) t
  let t := removeAllNoPrev (tryLitsCI cdSourceLits) t
  let t := removeAllNoPrev cdSEAt t
  let t := removeAllNoPrev cdCjkSEAt t
  let t := sepsToSpace t
  let t := collapseSpaces t
  jsTrimL t

/-- `ContentDetector.extractTitle`. -/
def cdExtractTitle (s : String) : String := String.mk (cdExtractTitleL s.toList)

/-- `/^S(\d{1,2})$/i` of `matchSeasonFolder`. -/
def msf1 : Chars → Option Nat
  | c :: rest =>
    if c.toLower = 's' then digits12K (fun d _ r => if r.isEmpty then some d else none) rest
    else none
  | [] => none

/-- `/^Season\s*(\d{1,2})$/i` of `matchSeasonFolder`. -/
def msf2 (s : Chars) : Option Nat :=
  match litCI "season".toList s with
  | some r => digits12K (fun d _ r2 => if r2.isEmpty then some d else none) (r.dropWhile isSpaceJS)
  | none => none

/-- `/^第(\d{1,2})季$/` of `matchSeasonFolder`. -/
def msf3 : Chars → Option Nat
  | c :: rest =>
    if c = '第' then digits12K (fun d _ r => if r = ['季'] then some d else none) rest
    else none
  | [] => none

/-- `/^S(\d{1,2})\s/i` of `matchSeasonFolder`. -/
def msf4 : Chars → Option Nat
  | c :: rest =>
    if c.toLower = 's' then
      digits12K (fun d _ r =>
        match r with
        | c2 :: _ => if isSpaceJS c2 then some d else none
        | [] => none) rest
    else none
  | [] => none

/-- `ContentDetector.matchSeasonFolder`: the four anchored patterns in order,
returning the captured season number (the source returns `{season, original}`
or `null`; only `season` and truthiness are consumed by callers). -/
def cdMatchSeasonFolder (folderName : String) : Option Nat :=
  let l := folderName.toList
  match msf1 l with
  | some d => some d
  | none =>
    match msf2 l with
    | some d => some d
    | none =>
      match msf3 l with
      | some d => some d
      | none => msf4 l

/-- Result record of `analyzeFile` (the movie branch carries no
season/episode fields, modelled as `none`). -/
structure CDFileAnalysis where
  type : String
  title : String
  season : Option Nat := none
  episode : Option Nat := none
  file : AItem
deriving DecidableEq

/-- `ContentDetector.analyzeFile`: episode iff `seasonEpisode.season ||
seasonEpisode.episode` is truthy (note: the number 0 is falsy). -/
def cdAnalyzeFile (file : AItem) : CDFileAnalysis :=
  let se := cdExtractSeasonEpisode file.name
  if jsTruthyNat se.season || jsTruthyNat se.episode then
    { type := "episode", title := cdExtractTitle file.name,
      season := se.season, episode := se.episode, file := file }
  else
    { type := "movie", title := cdExtractTitle file.name, file := file }

/-- The analysis record of `analyzeDirectory`. -/
structure CDDirAnalysis where
  movies : List AItem
  tvShows : List AItem
  mixed : List AItem
  subdirectories : List AItem
  files : List AItem
  primaryType : String
deriving DecidableEq

/-- The item loop of `analyzeDirectory`, threading the analysis record and
the local `movieCount`, `tvCount`, `videoFileCount` tallies. -/
def cdAnalyzeLoop : List AItem → CDDirAnalysis × Nat × Nat × Nat → CDDirAnalysis × Nat × Nat × Nat
  | [], st => st
  | item :: rest, (a, movieCount, tvCount, videoFileCount) =>
    if item.is_dir then
      let a := { a with subdirectories := a.subdirectories ++ [item] }
      if (cdMatchSeasonFolder item.name).isSome then
        cdAnalyzeLoop rest ({ a with tvShows := a.tvShows ++ [item] },
          movieCount, tvCount + 1, videoFileCount)
      else
        cdAnalyzeLoop rest ({ a with movies := a.movies ++ [item] },
          movieCount + 1, tvCount, videoFileCount)
    else
      let a := { a with files := a.files ++ [item] }
      if cdIsVideoFile item.name then
        let fa := cdAnalyzeFile item
        if fa.type = "movie" then
          cdAnalyzeLoop rest (a, movieCount + 1, tvCount, videoFileCount + 1)
        else if fa.type = "episode" then
          cdAnalyzeLoop rest (a, movieCount, tvCount + 1, videoFileCount + 1)
        else cdAnalyzeLoop rest (a, movieCount, tvCount, videoFileCount + 1)
      else cdAnalyzeLoop rest (a, movieCount, tvCount, videoFileCount)

/-- `ContentDetector.analyzeDirectory`: run the loop, then set `primaryType`
by comparing the tallies. -/
def cdAnalyzeDirectory (items : List AItem) : CDDirAnalysis :=
  let st := cdAnalyzeLoop items (⟨[], [], [], [], [], "unknown"⟩, 0, 0, 0)
  let a := st.1
  let movieCount := st.2.1
  let tvCount := st.2.2.1
  { a with primaryType :=
      if movieCount > tvCount then "movie"
      else if tvCount > movieCount then "tv"
      else if movieCount > 0 || tvCount > 0 then "mixed"
      else a.primaryType }

/-!
PathAnalyzer (src/path-analyzer.js).
-/

/-- Metadata record produced by `_analyzeFileName` (fields never assigned on a
path stay at their initial `null`, i.e. `none`). -/
structure PAMeta where
  filename : String
  type : String
  title : String
  season : Option Nat
  episode : Option Nat
  year : Option Nat
  quality : Option String
  format : Option String
deriving DecidableEq

/-- Alternatives of the quality regex `\b(4K|2160p|1080p|720p|480p|HD|UHD)\b/i`. -/
def paQualityLits : List Chars :=
  ["4k".toList, "2160p".toList, "1080p".toList, "720p".toList, "480p".toList,
   "hd".toList, "uhd".toList]

/-- First match of the quality regex; the capture keeps the input's casing. -/
def paQuality (filename : String) : Option String :=
  (scanFirst (fun prev cs =>
    match cs with
    | [] => none
    | c0 :: _ =>
      if boundaryB prev (some c0) then (tryTokenAltsB paQualityLits cs).map (fun r => r.1)
      else none) none filename.toList).map String.mk

/-- Extension alternatives of `/\.(mp4|mkv|avi|mov|wmv|flv|webm|m4v|ts|m2ts)$/i`. -/
def paFormatExts : List String :=
  ["mp4", "mkv", "avi", "mov", "wmv", "flv", "webm", "m4v", "ts", "m2ts"]

/-- The format capture, uppercased (`formatMatch[1].toUpperCase()`). -/
def paFormat (filename : String) : Option String :=
  let low := toLowerL filename.toList
  (paFormatExts.find? (fun e => ('.' :: e.toList).isSuffixOf low)).map
    (fun e => String.mk (e.toList.map Char.toUpper))

/-- Position matcher of `/\b(19|20)\d{2}\b/` returning the parsed year. -/
def paYearAt (prev : Option Char) : Chars → Option (Nat × Char × Chars)
  | a :: b :: c :: d :: rest =>
    if boundaryB prev (some a) &&
       ((a = '1' && b = '9') || (a = '2' && b = '0')) && c.isDigit && d.isDigit &&
       boundaryB (some d) rest.head?
    then some (1000 * digitVal a + 100 * digitVal b + 10 * digitVal c + digitVal d, d, rest)
    else none
  | _ => none

/-- Position matcher of `/S(\d{1,2})E(\d{1,3})/i` (no numeric-range guard here). -/
def paSEAt : Chars → Option (Nat × Nat)
  | c :: rest =>
    if c.toLower = 's' then
      digits12K (fun d1 _ r1 =>
        match r1 with
        | e :: r2 =>
          if e.toLower = 'e' then digits13K (fun d2 _ _ => some (d1, d2)) r2 else none
        | [] => none) rest
    else none
  | [] => none

/-- Position matcher of `/(?:EP?|第)(\d{1,3})(?:集)?/i` (the optional `P` is
greedy, with backtracking to the bare `E` branch). -/
def paEpisodeAt : Chars → Option Nat
  | c :: rest =>
    if c.toLower = 'e' then
      match rest with
      | p :: r1 =>
        if p.toLower = 'p' then
          match digits13K (fun d _ _ => some d) r1 with
          | some d => some d
          | none => digits13K (fun d _ _ => some d) (p :: r1)
        else digits13K (fun d _ _ => some d) (p :: r1)
      | [] => none
    else if c = '第' then digits13K (fun d _ _ => some d) rest
    else none
  | [] => none

/-- Alternatives of `_extractTitle`'s quality/source strip
`\b(4K|2160p|1080p|720p|480p|HD|UHD|BluRay|WEB-DL|BDRip|DVDRip)\b/gi`. -/
def paQualitySrcLits : List Chars :=
  paQualityLits ++ ["bluray".toList, "web-dl".toList, "bdrip".toList, "dvdrip".toList]

/-- Alternatives of `\b(x264|x265|H264|H265|HEVC|AVC)\b/gi`. -/
def paCodecLits : List Chars :=
  ["x264".toList, "x265".toList, "h264".toList, "h265".toList, "hevc".toList, "avc".toList]

/-- Removal matcher for a `\b(token alternation)\b/gi` (leading boundary checked
against the position's character, trailing against the token's last character). -/
def paTokenStripM (alts : List Chars) (prev : Option Char) (cs : Chars) :
    Option (Chars × Char × Chars) :=
  match cs with
  | [] => none
  | c0 :: _ =>
    if boundaryB prev (some c0) then
      (tryTokenAltsB alts cs).map (fun r => (([] : Chars), r.2.1, r.2.2))
    else none

/-- Position matcher of
`/\b(S\d{1,2}E\d{1,3}|Season\s*\d+|第\d+季|第\d+集|EP?\d+)\b/gi`, alternatives
tried in pattern order with full backtracking against the trailing boundary. -/
def paSeTokensAt (prev : Option Char) (cs : Chars) : Option (Char × Chars) :=
  match cs with
  | [] => none
  | c0 :: rest0 =>
    if boundaryB prev (some c0) then
      let alt1 : Option (Char × Chars) :=
        if c0.toLower = 's' then
          digits12K (fun _ _ r1 =>
            match r1 with
            | e :: r2 =>
              if e.toLower = 'e' then
                digits13K (fun _ lc r3 =>
                  if boundaryB (some lc) r3.head? then some (lc, r3) else none) r2
              else none
            | [] => none) rest0
        else none
      match alt1 with
      | some r => some r
      | none =>
        let alt2 : Option (Char × Chars) :=
          match litCI "season".toList cs with
          | some r1 =>
            digitsPlusK (fun lc r2 =>
              if boundaryB (some lc) r2.head? then some (lc, r2) else none)
              (r1.dropWhile isSpaceJS)
          | none => none
        match alt2 with
        | some r => some r
        | none =>
          let alt34 : Option (Char × Chars) :=
            if c0 = '第' then
              match digitsPlusK (fun _ r2 =>
                match r2 with
                | k :: r3 =>
                  if k = '季' && boundaryB (some '季') r3.head? then some ('季', r3) else none
                | [] => none) rest0 with
              | some r => some r
              | none =>
                digitsPlusK (fun _ r2 =>
                  match r2 with
                  | k :: r3 =>
                    if k = '集' && boundaryB (some '集') r3.head? then some ('集', r3) else none
                  | [] => none) rest0
            else none
          match alt34 with
          | some r => some r
          | none =>
            if c0.toLower = 'e' then
              match rest0 with
              | p :: r1 =>
                if p.toLower = 'p' then
                  match digitsPlusK (fun lc r2 =>
                    if boundaryB (some lc) r2.head? then some (lc, r2) else none) r1 with
                  | some r => some r
                  | none =>
                    digitsPlusK (fun lc r2 =>
                      if boundaryB (some lc) r2.head? then some (lc, r2) else none) (p :: r1)
                else
                  digitsPlusK (fun lc r2 =>
                    if boundaryB (some lc) r2.head? then some (lc, r2) else none) (p :: r1)
              | [] => none
            else none
    else none

/-- Position matcher of the bracket strip `/[\[【\(](.*?)[\]】\)]/g` (lazy
content, any closer type, `.` does not cross line terminators). -/
def paBracketsAt : Chars → Option (Char × Chars)
  | c :: rest =>
    if c = '[' || c = '【' || c = '(' then lazyCloseScan [']', '】', ')'] rest
    else none
  | [] => none

/-- `PathAnalyzer._extractTitle` on character lists: the cleaning statements
of the source, in order (without the final `|| filename` fallback). -/
def paExtractTitleL (s : Chars) : Chars :=
  let t := stripExtL s
  let t := replaceScan (paTokenStripM paQualitySrcLits) t.length none t
  let t := replaceScan (paTokenStripM paCodecLits) t.length none t
  let t := replaceScan (fun prev cs =>
    (paYearAt prev cs).map (fun r => (([] : Chars), r.2.1, r.2.2))) t.length none t
  let t := replaceScan (fun prev cs =>
    (paSeTokensAt prev cs).map (fun r => (([] : Chars), r.1, r.2))) t.length none t
  let t := removeAllNoPrev paBracketsAt t
  let t := sepsToSpace t
  let t := collapseSpaces t
  jsTrimL t

/-- `PathAnalyzer._extractTitle` (`return title || filename`). -/
def paExtractTitle (filename : String) : String :=
  let t := String.mk (paExtractTitleL filename.toList)
  if t = "" then filename else t

/-- `PathAnalyzer._analyzeFileName`. -/
def paAnalyzeFileName (filename : String) : PAMeta :=
  let quality := paQuality filename
  let format := paFormat filename
  let year := (scanFirst paYearAt none filename.toList).map (fun r => r.1)
  match scanFirst (fun _ cs => paSEAt cs) none filename.toList with
  | some (se, ep) =>
    { filename := filename, type := "episode", title := paExtractTitle filename,
      season := some se, episode := some ep, year := year, quality := quality,
      format := format }
  | none =>
    match scanFirst (fun _ cs => paEpisodeAt cs) none filename.toList with
    | some ep =>
      { filename := filename, type := "episode", title := paExtractTitle filename,
        season := none, episode := some ep, year := year, quality := quality,
        format := format }
    | none =>
      { filename := filename, type := "movie", title := paExtractTitle filename,
        season := none, episode := none, year := year, quality := quality,
        format := format }

/-- The constructor's default `ignoreDirs` deny-list. -/
def paIgnoreDirs : List String :=
  [".DS_Store", "Thumbs.db", "@eaDir", ".@__thumb", "extras", "behind the scenes",
   "deleted scenes", "featurettes", "interviews", "scenes", "shorts", "trailers",
   "other", "sample", "samples"]

/-- `PathAnalyzer._shouldIgnoreDirectory`: case-insensitive substring test. -/
def paShouldIgnoreDirectory (dirName : String) : Bool :=
  paIgnoreDirs.any (fun ig => containsSub (toLowerL ig.toList) (toLowerL dirName.toList))

/-- Character class `[\s\._-]` of the season special-directory pattern. -/
def paSeasonsDirClass (c : Char) : Bool := isSpaceJS c || c = '.' || c = '_' || c = '-'

/-- Tail `[\s\._-]*(\d{1,2})(?:季)?$` of the season special-directory pattern. -/
def paSeasonsDirTail (cs : Chars) : Bool :=
  (digits12K (fun _ _ r => if r = [] || r = ['季'] then some () else none)
    (cs.dropWhile paSeasonsDirClass)).isSome

/-- `specialDirs.seasons` = `/^(Season|S|第)[\s\._-]*(\d{1,2})(?:季)?$/i`
(the alternation backtracks from `Season` to `S`). -/
def paIsSeasonsDir (s : Chars) : Bool :=
  (match litCI "season".toList s with
   | some r => paSeasonsDirTail r
   | none => false) ||
  (match s with
   | c :: rest => (c.toLower = 's' || c = '第') && paSeasonsDirTail rest
   | [] => false)

/-- `PathAnalyzer._classifyDirectory`: first matching special-directory
pattern in `Object.entries` order.  The anchored alternations `movies`,
`tvShows`, `documentaries`, `anime` are whole-name matches; note that
`/^(Documentaries?|纪录片)$/i` literally accepts `Documentarie(s)`. -/
def paClassifyDirectory (dirName : String) : String :=
  let l := dirName.toList
  let low := toLowerL l
  if paIsSeasonsDir l then "seasons"
  else if ["movie", "movies", "电影", "影片"].any (fun w => low = w.toList) then "movies"
  else if ["tv", "television", "series", "电视剧", "剧集"].any (fun w => low = w.toList) then
    "tvShows"
  else if ["documentarie", "documentaries", "纪录片"].any (fun w => low = w.toList) then
    "documentaries"
  else if ["anime", "动漫", "动画"].any (fun w => low = w.toList) then "anime"
  else "content"

/-- `PathAnalyzer._isVideoFile`:
`filename.toLowerCase().substring(filename.lastIndexOf('.'))` — with no dot,
`substring(-1)` clamps to 0 and yields the whole (lowercased) name. -/
def paIsVideoFile (filename : String) : Bool :=
  let low := toLowerL filename.toList
  let r := low.reverse
  let pre := r.takeWhile (fun c => c ≠ '.')
  let ext := if pre.length = r.length then low else '.' :: pre.reverse
  paFormatExts.any (fun e => ('.' :: e.toList) = ext)

/-- A `videoFiles` entry: `{ ...item, path, metadata }`. -/
structure PAVideoFile where
  name : String
  is_dir : Bool
  url : Option String := none
  sign : Option String := none
  path : String
  metadata : PAMeta
deriving DecidableEq

/-- A `subdirectories` entry of `pathInfo`. -/
structure PASubdirEntry where
  name : String
  path : String
  type : String
deriving DecidableEq

/-- The per-directory `pathInfo` record of `_analyzeRecursive`. -/
structure PAPathInfo where
  path : String
  depth : Nat
  type : String
  items : List AItem
  videoFiles : List PAVideoFile
  subdirectories : List PASubdirEntry
deriving DecidableEq

/-- `PathAnalyzer._analyzeDirectoryType`. -/
def paAnalyzeDirectoryType (p : PAPathInfo) : String :=
  let movieFiles := (p.videoFiles.filter (fun f => f.metadata.type = "movie")).length
  let episodeFiles := (p.videoFiles.filter (fun f => f.metadata.type = "episode")).length
  let fromFiles : Option String :=
    if p.videoFiles.length > 0 then
      if movieFiles > 0 && episodeFiles = 0 then some "movie_collection"
      else if episodeFiles > 0 && movieFiles = 0 then some "tv_season"
      else if movieFiles > 0 && episodeFiles > 0 then some "mixed_content"
      else none
    else none
  match fromFiles with
  | some t => t
  | none =>
    if p.subdirectories.length > 0 && p.videoFiles.length = 0 then
      let seasonDirs := (p.subdirectories.filter (fun d => d.type = "seasons")).length
      let movieDirs := (p.subdirectories.filter (fun d => d.type = "movies")).length
      if seasonDirs > 0 then "tv_show"
      else if movieDirs > 0 then "movie_library"
      else "content_library"
    else "unknown"

/-- The running statistics of the tree analysis. -/
structure PAStatistics where
  totalDirectories : Nat
  totalFiles : Nat
  maxDepth : Nat
deriving DecidableEq

/-- The accumulator mutated by `_analyzeRecursive` (categories, path map,
statistics; fields only read by the wrapper are omitted). -/
structure PAAnalysis where
  movies : List PAPathInfo
  tvShows : List PAPathInfo
  mixed : List PAPathInfo
  unknownDirs : List PAPathInfo
  pathMap : List (String × PAPathInfo)
  statistics : PAStatistics
deriving DecidableEq

/-- `PathAnalyzer._categorizeDirectory`. -/
def paCategorizeDirectory (p : PAPathInfo) (a : PAAnalysis) : PAAnalysis :=
  if p.type = "movie_collection" || p.type = "movie_library" then
    { a with movies := a.movies ++ [p] }
  else if p.type = "tv_season" || p.type = "tv_show" then
    { a with tvShows := a.tvShows ++ [p] }
  else if p.type = "mixed_content" then { a with mixed := a.mixed ++ [p] }
  else { a with unknownDirs := a.unknownDirs ++ [p] }

/-- The item loop inside `_analyzeRecursive`; `walkChild` is the recursive
call on a subdirectory (already carrying `depth + 1`). -/
def paProcessItems (walkChild : String → PAAnalysis → PAAnalysis) (currentPath : String) :
    List AItem → PAPathInfo × PAAnalysis → PAPathInfo × PAAnalysis
  | [], st => st
  | item :: rest, (pathInfo, analysis) =>
    let itemPath := currentPath ++ "/" ++ item.name
    if item.is_dir then
      if paShouldIgnoreDirectory item.name then
        paProcessItems walkChild currentPath rest (pathInfo, analysis)
      else
        let pathInfo := { pathInfo with subdirectories :=
          pathInfo.subdirectories ++ [⟨item.name, itemPath, paClassifyDirectory item.name⟩] }
        let analysis := walkChild itemPath analysis
        paProcessItems walkChild currentPath rest (pathInfo, analysis)
    else
      let pathInfo := { pathInfo with items := pathInfo.items ++ [item] }
      if paIsVideoFile item.name then
        let pathInfo := { pathInfo with videoFiles := pathInfo.videoFiles ++
          [{ name := item.name, is_dir := item.is_dir, url := item.url, sign := item.sign,
             path := itemPath, metadata := paAnalyzeFileName item.name }] }
        let analysis := { analysis with statistics :=
          { analysis.statistics with totalFiles := analysis.statistics.totalFiles + 1 } }
        paProcessItems walkChild currentPath rest (pathInfo, analysis)
      else
        paProcessItems walkChild currentPath rest (pathInfo, analysis)

/-- `PathAnalyzer._analyzeRecursive`.  The listing collaborator may fail
(`Except.error`); the body's `try`/`catch` leaves the accumulator untouched in
that case, exactly as an empty listing does.  The fuel argument models the
call stack; any fuel > `maxDepth - depth` makes the depth guard (not the
fuel) the binding bound, since at `depth = maxDepth + 1` the guard returns. -/
def paAnalyzeRecursive (listing : String → Except Unit (List AItem)) (maxDepth : Nat) :
    Nat → String → Nat → PAAnalysis → PAAnalysis
  | 0, _, _, analysis => analysis
  | fuel + 1, currentPath, depth, analysis =>
    if depth > maxDepth then analysis
    else
      match listing currentPath with
      | .error _ => analysis
      | .ok items =>
        if items.isEmpty then analysis
        else
          let analysis := { analysis with statistics :=
            { analysis.statistics with
              totalDirectories := analysis.statistics.totalDirectories + 1,
              maxDepth := max analysis.statistics.maxDepth depth } }
          let pathInfo : PAPathInfo :=
            { path := currentPath, depth := depth, type := "unknown",
              items := [], videoFiles := [], subdirectories := [] }
          let st := paProcessItems
            (fun p a => paAnalyzeRecursive listing maxDepth fuel p (depth + 1) a)
            currentPath items (pathInfo, analysis)
          let pathInfo := { st.1 with type := paAnalyzeDirectoryType st.1 }
          let analysis := paCategorizeDirectory pathInfo st.2
          { analysis with pathMap := analysis.pathMap ++ [(currentPath, pathInfo)] }

/-- The whole-tree walk as `analyzePath` starts it (root at depth 0); fuel
`maxDepth + 2` exceeds the depth guard, so it never cuts the recursion. -/
def paAnalyzePathWalk (listing : String → Except Unit (List AItem)) (maxDepth : Nat)
    (rootPath : String) : PAAnalysis :=
  paAnalyzeRecursive listing maxDepth (maxDepth + 2) rootPath 0
    ⟨[], [], [], [], [], ⟨0, 0, 0⟩⟩

/-!
SmartDetector (src/unnamed/part_001): season-episode collection and the
season-fragment merge.
-/

/-- An episode record as `_getSeasonEpisodes` builds it.  The source objects
carry only the explicit fields here; in particular they have no `episode`
property, yet the final sort comparator reads `a.episode` — modelled by the
never-assigned `episode : Option Nat := none` field (JavaScript property
access on a missing key yields `undefined`, and `undefined || 0` is `0`). -/
structure MEpisode where
  episode_number : Nat
  name : String
  url : String
  download_url : String
  path : String
  episode : Option Nat := none
deriving DecidableEq

/-- `item.url || baseUrl + '/d' + seasonPath + '/' + item.name + (item.sign ?
'?sign=' + item.sign : '')`. -/
def episodeUrl (baseUrl seasonPath : String) (item : AItem) : String :=
  jsOrStr item.url
    (baseUrl ++ "/d" ++ seasonPath ++ "/" ++ item.name ++
      (match item.sign with
       | some sg => if sg = "" then "" else "?sign=" ++ sg
       | none => ""))

/-- The collection loop of `_getSeasonEpisodes`, in listing order: a video
file with a truthy parsed episode number keeps it; otherwise the running
`episodes.length + 1` ordinal is used and the extension-stripped name becomes
the title. -/
def getSeasonEpisodesLoop (baseUrl seasonPath : String) :
    List AItem → List MEpisode → List MEpisode
  | [], acc => acc
  | item :: rest, acc =>
    if !item.is_dir && cdIsVideoFile item.name then
      let einfo := cdExtractSeasonEpisode item.name
      let title := cdExtractTitle item.name
      let u := episodeUrl baseUrl seasonPath item
      if jsTruthyNat einfo.episode then
        getSeasonEpisodesLoop baseUrl seasonPath rest
          (acc ++ [{ episode_number := einfo.episode.getD 0, name := title,
                     url := u, download_url := u,
                     path := seasonPath ++ "/" ++ item.name }])
      else
        getSeasonEpisodesLoop baseUrl seasonPath rest
          (acc ++ [{ episode_number := acc.length + 1,
                     name := String.mk (stripExtL item.name.toList),
                     url := u, download_url := u,
                     path := seasonPath ++ "/" ++ item.name }])
    else getSeasonEpisodesLoop baseUrl seasonPath rest acc

/-- The comparator `(a.episode || 0) - (b.episode || 0)` of the episode sort,
as the `le` of a stable sort (the subtraction is nonpositive iff ordered). -/
def episodeSortLe (a b : MEpisode) : Bool := a.episode.getD 0 ≤ b.episode.getD 0

/-- `SmartDetector._getSeasonEpisodes`: a failed listing returns `[]`. -/
def getSeasonEpisodes (listing : Except Unit (List AItem)) (baseUrl seasonPath : String) :
    List MEpisode :=
  match listing with
  | .error _ => []
  | .ok items => jsSortBy episodeSortLe (getSeasonEpisodesLoop baseUrl seasonPath items [])

/-- A season fragment `{ season, episodes }`. -/
structure MSeason where
  season : Nat
  episodes : List MEpisode
deriving DecidableEq

/-- A TV-show candidate as `_mergeTvSeasons` consumes it. -/
structure MShow where
  title : String
  path : String
  seasons : List MSeason
deriving DecidableEq

/-- The merged series record (`path` is only set during finalization). -/
structure MSeries where
  title : String
  type : String
  seasons : List MSeason
  paths : List String
  path : Option String := none
deriving DecidableEq

/-- `/^S\d{2}$/` (case-sensitive, exactly two digits). -/
def isS2Marker : Chars → Bool
  | ['S', a, b] => a.isDigit && b.isDigit
  | _ => false

/-- `/^第\d+季$/`. -/
def isCjkSeasonMarker (s : Chars) : Bool :=
  match s with
  | '第' :: rest =>
    match rest.reverse with
    | '季' :: mid => !mid.isEmpty && mid.all Char.isDigit
    | _ => false
  | _ => false

/-- Position matcher of `/[\(\（].*?[\)\）]/g` (lazy parenthesis strip). -/
def parenLazyAt : Chars → Option (Char × Chars)
  | c :: rest => if c = '(' || c = '（' then lazyCloseScan [')', '）'] rest else none
  | [] => none

/-- Position matcher of `/S\d{2}-S\d{2}季全集/g`. -/
def seasonRangeAt : Chars → Option (Char × Chars)
  | 'S' :: a :: b :: '-' :: 'S' :: c :: d :: '季' :: '全' :: '集' :: rest =>
    if a.isDigit && b.isDigit && c.isDigit && d.isDigit then some ('集', rest) else none
  | _ => none

/-- Position matcher of `/\d{4}P/g` (uppercase `P` only). -/
def d4PAt : Chars → Option (Char × Chars)
  | a :: b :: c :: d :: 'P' :: rest =>
    if a.isDigit && b.isDigit && c.isDigit && d.isDigit then some ('P', rest) else none
  | _ => none

/-- Position matcher of `/[中英日韩]语.*?字/g`. -/
def langSubAt : Chars → Option (Char × Chars)
  | c :: '语' :: rest =>
    if c = '中' || c = '英' || c = '日' || c = '韩' then lazyCloseScan ['字'] rest
    else none
  | _ => none

/-- The string-cleanup block of `_extractSeriesName`, in source order. -/
def cleanSeriesNameL (s : Chars) : Chars :=
  let t := removeAllNoPrev parenLazyAt s
  let t := removeAllNoPrev seasonRangeAt t
  let t := removeAllNoPrev d4PAt t
  let t := removeAllNoPrev langSubAt t
  jsTrimL (collapseSpaces t)

/-- `SmartDetector._extractSeriesName`: a bare season-marker title is replaced
by the nearest non-marker ancestor path segment (scanning from the second-last
segment down), then cleaned; empty results fall back to the original title or
to "Unknown Series". -/
def extractSeriesName (sh : MShow) : String :=
  if sh.title = "" then "Unknown Series"
  else
    let base :=
      if isS2Marker sh.title.toList || isCjkSeasonMarker sh.title.toList then
        if sh.path = "" then sh.title
        else
          let parts := splitOnChar '/' sh.path.toList
          match parts.dropLast.reverse.find? (fun part =>
            !part.isEmpty && !isS2Marker part && !isCjkSeasonMarker part) with
          | some part => String.mk part
          | none => sh.title
      else sh.title
    let cleaned := String.mk (cleanSeriesNameL base.toList)
    if cleaned = "" then (if sh.title = "" then "Unknown Series" else sh.title)
    else cleaned

/-- The mutable series value held in `seriesMap`. -/
structure MSeriesAcc where
  title : String
  type : String
  seasons : List MSeason
  paths : List String
deriving DecidableEq

/-- Merge one show into an existing series: concatenate the season fragments
(no per-season-number deduplication) and record the new source path. -/
def addToSeries (acc : MSeriesAcc) (sh : MShow) : MSeriesAcc :=
  { acc with
    seasons := acc.seasons ++ sh.seasons,
    paths := if sh.path ≠ "" && !acc.paths.contains sh.path
             then acc.paths ++ [sh.path] else acc.paths }

/-- New series entry; `[show.path].filter(Boolean)` drops an empty path. -/
def newSeriesAcc (seriesName : String) (sh : MShow) : MSeriesAcc :=
  { title := seriesName, type := "tvshow", seasons := sh.seasons,
    paths := if sh.path = "" then [] else [sh.path] }

/-- Insertion-ordered update of the `seriesMap` association list (a JS `Map`
iterates keys in first-insertion order). -/
def upsertSeries : List (String × MSeriesAcc) → String → MShow → List (String × MSeriesAcc)
  | [], key, sh => [(key, newSeriesAcc key sh)]
  | (k, acc) :: rest, key, sh =>
    if k = key then (k, addToSeries acc sh) :: rest
    else (k, acc) :: upsertSeries rest key sh

/-- The comparator `(a.season || 1) - (b.season || 1)` of the season sort. -/
def seasonSortLe (a b : MSeason) : Bool := jsOr1 a.season ≤ jsOr1 b.season

/-- Finalize one series: sort seasons by `(season || 1)` (stable), then set
the main path to the parent of the first recorded path. -/
def finalizeSeries (acc : MSeriesAcc) : MSeries :=
  let sorted := jsSortBy seasonSortLe acc.seasons
  let path? :=
    match acc.paths with
    | [] => none
    | firstPath :: _ =>
      some (String.mk (joinChar '/' (splitOnChar '/' firstPath.toList).dropLast))
  { title := acc.title, type := acc.type, seasons := sorted, paths := acc.paths,
    path := path? }

/-- `SmartDetector._mergeTvSeasons` (an empty input returns `[]` directly in
the source; the fold yields the same). -/
def mergeTvSeasons (tvShows : List MShow) : List MSeries :=
  (tvShows.foldl (fun m sh => upsertSeries m (extractSeriesName sh) sh) []).map
    (fun kv => finalizeSeries kv.2)

/-!
Aggregator (bundled index of src/content-detector.js, lines 309-425):
`aggregateSameNameContent`, `selectMainVersion`, and the final
`finalCorrectedMovies` / `finalCorrectedTvShows` split (lines 724-769).
-/

/-- `s.startsWith(p)`. -/
def jsStartsWith (s p : String) : Bool := p.toList.isPrefixOf s.toList

/-- An enriched catalog entry as the version-group merge consumes it.  The
guards only test `v.files && v.files.length > 0` (same for `seasons`), and
the version records use `v.files || []`, so an absent list and an empty list
are indistinguishable here and both are modelled as `[]`. -/
structure CItem where
  id : String
  title : String
  media_type : String
  directory_type : Option String := none
  files : List String := []
  seasons : List String := []
deriving DecidableEq

/-- `groupKey` = `${item.title}_${item.media_type}`. -/
def groupKeyOf (i : CItem) : String := i.title ++ "_" ++ i.media_type

/-- First-occurrence key order of the grouping `Map`. -/
def groupKeys (l : List CItem) : List String :=
  l.foldl (fun ks i => if ks.contains (groupKeyOf i) then ks else ks ++ [groupKeyOf i]) []

/-- The grouped map as an insertion-ordered association list; the per-key
member lists keep discovery order (`Map.get(key).push(item)`). -/
def groupsOf (l : List CItem) : List (String × List CItem) :=
  (groupKeys l).map (fun k => (k, l.filter (fun i => groupKeyOf i = k)))

/-- `selectMainVersion`: first member with nonempty `files`, else first with
nonempty `seasons`, else `versions[0]` (`none` only on an empty list, which
never reaches the function). -/
def selectMainVersion (versions : List CItem) : Option CItem :=
  match versions.filter (fun v => !v.files.isEmpty) with
  | m :: _ => some m
  | [] =>
    match versions.filter (fun v => !v.seasons.isEmpty) with
    | m :: _ => some m
    | [] => versions.head?

/-- `getVersionName`. -/
def getVersionName (version : CItem) : String :=
  if jsStartsWith version.id "movie_" then "电影版"
  else if jsStartsWith version.id "tv_" then "电视剧版"
  else if version.directory_type = some "movie" then "电影版"
  else if version.directory_type = some "tv" then "电视剧版"
  else "默认版"

/-- One entry of the aggregated `versions` array. -/
structure CVersion where
  id : String
  version_name : String
  is_main : Bool
  media_type : String
  files : List String
  seasons : List String
  directory_type : Option String
deriving DecidableEq

/-- Build one `versions` entry (`files`/`seasons` defaulted with `|| []`). -/
def mkVersion (v : CItem) (isMain : Bool) : CVersion :=
  { id := v.id, version_name := getVersionName v, is_main := isMain,
    media_type := v.media_type, files := v.files, seasons := v.seasons,
    directory_type := v.directory_type }

/-- The aggregated object of the multi-member branch (`{ ...mainVersion, id,
versions, is_aggregated, aggregated_count }`). -/
structure CAggItem where
  base : CItem
  versions : List CVersion
  is_aggregated : Bool
  aggregated_count : Nat
deriving DecidableEq

/-- Output entries of `aggregateSameNameContent`. -/
inductive AggOut
  | plain (i : CItem)
  | agg (a : CAggItem)
deriving DecidableEq

/-- Build the aggregated object for one multi-member group: `otherVersions`
are the members whose `id` differs from the main version's. -/
def mkAggregatedItem (items : List CItem) : Option CAggItem :=
  (selectMainVersion items).map (fun mainVersion =>
    let otherVersions := items.filter (fun i => i.id ≠ mainVersion.id)
    { base := mainVersion,
      versions :=
        mkVersion mainVersion true :: otherVersions.map (fun v => mkVersion v false),
      is_aggregated := true,
      aggregated_count := items.length })

/-- `aggregateSameNameContent`: iterate the grouped map in insertion order;
singleton groups pass through, larger groups aggregate. -/
def aggregateSameNameContent (contentList : List CItem) : List AggOut :=
  (groupsOf contentList).flatMap (fun kv =>
    match kv.2 with
    | [i] => [AggOut.plain i]
    | items => (mkAggregatedItem items).toList.map AggOut.agg)

/-- A TV season as the final split reads it (`episodes` may be absent). -/
structure E8Season where
  episodes : Option (List String)
deriving DecidableEq

/-- A post-enrichment record as the final movie/TV split consumes it; every
field the split reads, rewrites or deletes is an explicit option
(`none` = property absent). -/
structure Entry8 where
  id : String
  media_type : Option String := none
  directory_type : Option String := none
  files : Option (List String) := none
  seasons : Option (List E8Season) := none
  episode_count : Option Nat := none
  number_of_seasons : Option Nat := none
  number_of_episodes : Option Nat := none
  original_tmdb_id : Option String := none
deriving DecidableEq

/-- JS `String.prototype.replace` with a plain-string pattern: remove the
first occurrence only. -/
def removeFirstSub (pat : Chars) : Chars → Chars
  | [] => []
  | s@(c :: rest) =>
    if pat.isPrefixOf s then s.drop pat.length else c :: removeFirstSub pat rest

/-- `finalMovies` = `filter(media_type === 'movie' || directory_type === 'movie')`. -/
def finalMovies (allContent : List Entry8) : List Entry8 :=
  allContent.filter (fun i => i.media_type = some "movie" || i.directory_type = some "movie")

/-- `finalTvShows` = `filter(media_type === 'tv' || directory_type === 'tv')`. -/
def finalTvShows (allContent : List Entry8) : List Entry8 :=
  allContent.filter (fun i => i.media_type = some "tv" || i.directory_type = some "tv")

/-- The movie-side correction: delete `seasons`, `episode_count`,
`number_of_seasons`, `number_of_episodes`, then force a `movie_` id. -/
def correctMovie (movie : Entry8) : Entry8 :=
  let corrected := { movie with
    seasons := none
    episode_count := none
    number_of_seasons := none
    number_of_episodes := none }
  if jsStartsWith corrected.id "movie_" then corrected
  else { corrected with id := "movie_" ++ jsOrStr corrected.original_tmdb_id corrected.id }

/-- `finalCorrectedMovies`. -/
def finalCorrectedMovies (allContent : List Entry8) : List Entry8 :=
  (finalMovies allContent).map correctMovie

/-- The TV-side correction: force a `tv_` id, default an absent `seasons` to
`[]`, and recompute a falsy `episode_count` from the seasons; the `files`
field is left untouched. -/
def correctTvShow (tvShow : Entry8) : Entry8 :=
  let corrected :=
    if jsStartsWith tvShow.id "tv_" then tvShow
    else
      { tvShow with
        id := "tv_" ++ jsOrStr tvShow.original_tmdb_id
          (String.mk (removeFirstSub "movie_".toList tvShow.id.toList)) }
  let corrected :=
    match corrected.seasons with
    | none => { corrected with seasons := some [] }
    | some _ => corrected
  if jsTruthyNat corrected.episode_count then corrected
  else
    { corrected with
      episode_count :=
        some (((corrected.seasons.getD []).map (fun s => (s.episodes.getD []).length)).sum) }

/-- `finalCorrectedTvShows`. -/
def finalCorrectedTvShows (allContent : List Entry8) : List Entry8 :=
  (finalTvShows allContent).map correctTvShow

/-!
Claim theorems.
-/

theorem cdTryCombined_bounds :
    ∀ (ps : List (String → Option (Nat × Nat))) (s : String) (se ep : Nat),
      cdTryCombined ps s = some (se, ep) → se ≤ 50 ∧ ep ≤ 200 := by
  intro ps
  induction ps with
  | nil => intro s se ep h; simp [cdTryCombined] at h
  | cons p ps ih =>
    intro s se ep h
    simp only [cdTryCombined] at h
    split at h
    · split at h
      · exact ih s se ep h
      · rename_i hguard
        cases h
        have h50 : ¬ se > 50 := fun hgt => hguard (by simp [hgt])
        have h200 : ¬ ep > 200 := fun hgt => hguard (by simp [hgt])
        omega
    · exact ih s se ep h

theorem cdTryEpisodeOnly_bounds :
    ∀ (ps : List (String → Option Nat)) (s : String) (ep : Nat),
      cdTryEpisodeOnly ps s = some ep → ep ≤ 200 := by
  intro ps
  induction ps with
  | nil => intro s ep h; simp [cdTryEpisodeOnly] at h
  | cons p ps ih =>
    intro s ep h
    simp only [cdTryEpisodeOnly] at h
    split at h
    · split at h
      · exact ih s ep h
      · rename_i hguard
        cases h
        omega
    · exact ih s ep h

/-- C2 (amended): `ContentDetector.extractSeasonEpisode` never reports a
season above 50 nor an episode above 200 — an out-of-range pattern match
falls through to the next pattern.  The claim as stated also covers
`PathAnalyzer._analyzeFileName`, which has no such guard (see the
counterexample). -/
theorem c2_season_episode_bounds (s : String) :
    (∀ n, (cdExtractSeasonEpisode s).season = some n → n ≤ 50) ∧
    (∀ e, (cdExtractSeasonEpisode s).episode = some e → e ≤ 200) := by
  unfold cdExtractSeasonEpisode
  cases hc : cdTryCombined cdCombinedPatterns s with
  | some v =>
    obtain ⟨a, b⟩ := v
    have hb := cdTryCombined_bounds cdCombinedPatterns s a b hc
    constructor
    · intro n hn; cases hn; exact hb.1
    · intro e he; cases he; exact hb.2
  | none =>
    cases he : cdTryEpisodeOnly cdEpisodeOnlyPatterns s with
    | some ep =>
      have hb := cdTryEpisodeOnly_bounds cdEpisodeOnlyPatterns s ep he
      constructor
      · intro n hn; cases hn
      · intro e hee; cases hee; exact hb
    | none =>
      constructor
      · intro n hn; cases hn
      · intro e hee; cases hee

/-- C2 witness: a benign name where the parser reports season 2 ≤ 50. -/
theorem c2_witness :
    (cdExtractSeasonEpisode "Show.S02E05.1080p.mkv").season = some 2 ∧ 2 ≤ 50 :=
  ⟨by decide, (c2_season_episode_bounds "Show.S02E05.1080p.mkv").1 2 (by decide)⟩

/-- C2 counterexample: `PathAnalyzer._analyzeFileName` (also named by the
claim) reports season 99 > 50 and episode 250 > 200 — its
`/S(\d{1,2})E(\d{1,3})/i` match has no numeric-range guard. -/
theorem c2_counterexample :
    (paAnalyzeFileName "Show.S99E250.mkv").season = some 99 ∧
    (paAnalyzeFileName "Show.S99E250.mkv").episode = some 250 := by decide

/-- C5 (amended): whenever the `S(\d{1,2})E(\d{1,2})` pattern matches a name
with captured season ≤ 50 and episode ≤ 200,
`ContentDetector.extractSeasonEpisode` returns exactly that pair (the first
pattern wins and the guard passes).  `PathAnalyzer._analyzeFileName`, also
named by the claim, captures episodes with the wider `E(\d{1,3})` and can
return a different pair for the same name (see the counterexample). -/
theorem c5_se_pair_returned (s : String) (a b : Nat)
    (h : cdP1 s = some (a, b)) (ha : a ≤ 50) (hb : b ≤ 200) :
    cdExtractSeasonEpisode s = ⟨some a, some b⟩ := by
  have hg : (a > 50 || b > 200) = false := by
    simp only [Bool.or_eq_false_iff, decide_eq_false_iff_not]
    omega
  unfold cdExtractSeasonEpisode cdCombinedPatterns
  simp only [cdTryCombined, h, hg]
  simp

/-- C5 witness: the spec's own example. -/
theorem c5_witness :
    cdExtractSeasonEpisode "Show.S02E05.1080p.mkv" = ⟨some 2, some 5⟩ :=
  c5_se_pair_returned "Show.S02E05.1080p.mkv" 2 5 (by decide) (by decide) (by decide)

/-- C5 counterexample: `"Show.S02E055.mkv"` contains the combined token
`S02E05` — its `S(\d{1,2})E(\d{1,2})` match captures season 2, episode 5,
both within bounds — yet `PathAnalyzer._analyzeFileName` reports episode 55,
because its own regex is `S(\d{1,2})E(\d{1,3})`: the two parsers the claim
quantifies over disagree on this name. -/
theorem c5_counterexample :
    cdP1 "Show.S02E055.mkv" = some (2, 5) ∧
    cdExtractSeasonEpisode "Show.S02E055.mkv" = ⟨some 2, some 5⟩ ∧
    (paAnalyzeFileName "Show.S02E055.mkv").season = some 2 ∧
    (paAnalyzeFileName "Show.S02E055.mkv").episode = some 55 := by decide

/-- C10 (amended): `analyzeFile` classifies a file as an episode exactly when
the parsed season or episode is truthy (non-null and nonzero — JavaScript
`0` is falsy), and otherwise as a movie; no other type is produced. -/
theorem c10_analyzeFile_dichotomy (file : AItem) :
    ((cdAnalyzeFile file).type = "episode" ↔
      (jsTruthyNat (cdExtractSeasonEpisode file.name).season = true ∨
       jsTruthyNat (cdExtractSeasonEpisode file.name).episode = true)) ∧
    ((cdAnalyzeFile file).type = "episode" ∨ (cdAnalyzeFile file).type = "movie") := by
  simp only [cdAnalyzeFile]
  by_cases h : (jsTruthyNat (cdExtractSeasonEpisode file.name).season ||
      jsTruthyNat (cdExtractSeasonEpisode file.name).episode) = true
  · rw [if_pos h]
    exact ⟨⟨fun _ => by simpa using h, fun _ => rfl⟩, Or.inl rfl⟩
  · rw [if_neg h]
    refine ⟨⟨fun hh => ?_, fun hh => ?_⟩, Or.inr rfl⟩
    · have hne : ("movie" : String) ≠ "episode" := by decide
      exact absurd hh hne
    · exact absurd (by rcases hh with hh | hh <;> simp [hh]) h

/-- C10 counterexample: `E00.mkv` — the parser finds episode number 0
(a non-null episode), yet `analyzeFile` classifies the file as a movie,
because `0` is falsy in the `season || episode` test. -/
theorem c10_counterexample :
    (cdExtractSeasonEpisode "E00.mkv").episode = some 0 ∧
    (cdAnalyzeFile ⟨"E00.mkv", false, none, none⟩).type = "movie" := by decide

/-- C7 (amended): `PathAnalyzer._extractTitle` is total and, via its
`title || filename` fallback, returns a nonempty string for every nonempty
input (the fallback is the original file name, untrimmed).
`ContentDetector.extractTitle`, also named by the claim, has no fallback and
can return the empty string (see the counterexample). -/
theorem c7_pa_extractTitle_nonempty (filename : String) (h : filename ≠ "") :
    paExtractTitle filename ≠ "" := by
  simp only [paExtractTitle]
  split
  · exact h
  · assumption

/-- C7 witness. -/
theorem c7_witness : paExtractTitle "x.mkv" ≠ "" :=
  c7_pa_extractTitle_nonempty "x.mkv" (by decide)

/-- C7 counterexample: `ContentDetector.extractTitle "AAC"` is the empty
string, although the trimmed original name is nonempty — the audio-token
strip removes the whole name and there is no fallback. -/
theorem c7_counterexample :
    cdExtractTitle "AAC" = "" ∧ jsTrimL "AAC".toList = "AAC".toList ∧ "AAC" ≠ "" := by
  decide

theorem stringToList_mk (l : Chars) : (String.mk l).toList = l := rfl

theorem cdExtractTitleL_fixed (y : Chars)
    (hExt : stripExtL y = y) (hYear : removeAllNoPrev cdYearParenAt y = y)
    (hRes : removeAllNoPrev cdResAt y = y) (hX26 : removeAllNoPrev cdX26At y = y)
    (hH26 : removeAllNoPrev cdH26At y = y)
    (hAudio : removeAllNoPrev (tryLitsCI cdAudioLits) y = y)
    (hSource : removeAllNoPrev (tryLitsCI cdSourceLits) y = y)
    (hSE : removeAllNoPrev cdSEAt y = y) (hCjk : removeAllNoPrev cdCjkSEAt y = y)
    (hSeps : sepsToSpace y = y) (hSp : collapseSpaces y = y) (hTrim : jsTrimL y = y) :
    cdExtractTitleL y = y := by
  show jsTrimL (collapseSpaces (sepsToSpace (removeAllNoPrev cdCjkSEAt (removeAllNoPrev cdSEAt
    (removeAllNoPrev (tryLitsCI cdSourceLits) (removeAllNoPrev (tryLitsCI cdAudioLits)
      (removeAllNoPrev cdH26At (removeAllNoPrev cdX26At (removeAllNoPrev cdResAt
        (removeAllNoPrev cdYearParenAt (stripExtL y))))))))))) = y
  rw [hExt, hYear, hRes, hX26, hH26, hAudio, hSource, hSE, hCjk, hSeps, hSp, hTrim]

/-- C4 (amended): `extractTitle` is idempotent at every input whose extracted
title is itself left unchanged by each individual cleaning stage — which holds
for ordinary media file names, but not for all strings: a cleaning stage can
manufacture a token that only the next pass removes (see the counterexample). -/
theorem c4_extractTitle_idempotent_on_clean (x : String)
    (hExt : stripExtL (cdExtractTitleL x.toList) = cdExtractTitleL x.toList)
    (hYear : removeAllNoPrev cdYearParenAt (cdExtractTitleL x.toList) = cdExtractTitleL x.toList)
    (hRes : removeAllNoPrev cdResAt (cdExtractTitleL x.toList) = cdExtractTitleL x.toList)
    (hX26 : removeAllNoPrev cdX26At (cdExtractTitleL x.toList) = cdExtractTitleL x.toList)
    (hH26 : removeAllNoPrev cdH26At (cdExtractTitleL x.toList) = cdExtractTitleL x.toList)
    (hAudio : removeAllNoPrev (tryLitsCI cdAudioLits) (cdExtractTitleL x.toList) =
      cdExtractTitleL x.toList)
    (hSource : removeAllNoPrev (tryLitsCI cdSourceLits) (cdExtractTitleL x.toList) =
      cdExtractTitleL x.toList)
    (hSE : removeAllNoPrev cdSEAt (cdExtractTitleL x.toList) = cdExtractTitleL x.toList)
    (hCjk : removeAllNoPrev cdCjkSEAt (cdExtractTitleL x.toList) = cdExtractTitleL x.toList)
    (hSeps : sepsToSpace (cdExtractTitleL x.toList) = cdExtractTitleL x.toList)
    (hSp : collapseSpaces (cdExtractTitleL x.toList) = cdExtractTitleL x.toList)
    (hTrim : jsTrimL (cdExtractTitleL x.toList) = cdExtractTitleL x.toList) :
    cdExtractTitle (cdExtractTitle x) = cdExtractTitle x := by
  have hL : cdExtractTitleL (cdExtractTitleL x.toList) = cdExtractTitleL x.toList :=
    cdExtractTitleL_fixed _ hExt hYear hRes hX26 hH26 hAudio hSource hSE hCjk hSeps hSp hTrim
  unfold cdExtractTitle
  rw [stringToList_mk, hL]

/-- C4 witness: a typical media name, idempotent because its extracted title
`"Show"` is fixed by every stage. -/
theorem c4_witness :
    cdExtractTitle (cdExtractTitle "Show.S02E05.1080p.mkv") =
      cdExtractTitle "Show.S02E05.1080p.mkv" :=
  c4_extractTitle_idempotent_on_clean "Show.S02E05.1080p.mkv"
    (by decide) (by decide) (by decide) (by decide) (by decide) (by decide)
    (by decide) (by decide) (by decide) (by decide) (by decide) (by decide)

/-- C4 counterexample: `extractTitle "(2(2020)020)"` is `"(2020)"` (the year
strip removes the inner `(2020)` and splices a new one together), and a second
application strips that to `""` — extractTitle is not idempotent. -/
theorem c4_counterexample :
    cdExtractTitle (cdExtractTitle "(2(2020)020)") ≠ cdExtractTitle "(2(2020)020)" := by
  decide

/-- The `movieFiles` tally of `_analyzeDirectoryType`. -/
def paMovieTally (p : PAPathInfo) : Nat :=
  (p.videoFiles.filter (fun f => f.metadata.type = "movie")).length

/-- The `episodeFiles` tally of `_analyzeDirectoryType`. -/
def paEpisodeTally (p : PAPathInfo) : Nat :=
  (p.videoFiles.filter (fun f => f.metadata.type = "episode")).length

/-- C6 (amended): `_analyzeDirectoryType` decides by zero/nonzero tallies, not
by comparing them: any directory with both movie-typed and episode-typed video
files is `mixed_content` regardless of which tally is larger; a movie verdict
requires a zero episode tally and vice versa; with no video files and no
subdirectories the verdict is `unknown`.  In particular 3 movie files and 0
episode files give `movie_collection`, and 2 and 2 give `mixed_content`. -/
theorem c6_verdict_by_zero_nonzero (p : PAPathInfo) :
    (paMovieTally p ≠ 0 ∧ paEpisodeTally p ≠ 0 →
      paAnalyzeDirectoryType p = "mixed_content") ∧
    (paMovieTally p ≠ 0 ∧ paEpisodeTally p = 0 →
      paAnalyzeDirectoryType p = "movie_collection") ∧
    (paMovieTally p = 0 ∧ paEpisodeTally p ≠ 0 →
      paAnalyzeDirectoryType p = "tv_season") ∧
    (p.videoFiles = [] ∧ p.subdirectories = [] →
      paAnalyzeDirectoryType p = "unknown") := by
  simp only [paMovieTally, paEpisodeTally]
  refine ⟨fun h => ?_, fun h => ?_, fun h => ?_, fun h => ?_⟩
  · obtain ⟨hm, he⟩ := h
    have hv : 0 < p.videoFiles.length :=
      lt_of_lt_of_le (Nat.pos_of_ne_zero hm) (List.length_filter_le _ _)
    simp only [paAnalyzeDirectoryType]
    rw [if_pos hv]
    rw [if_neg (by simp only [Bool.and_eq_true, decide_eq_true_eq, not_and]; omega)]
    rw [if_neg (by simp only [Bool.and_eq_true, decide_eq_true_eq, not_and]; omega)]
    rw [if_pos (by simp only [Bool.and_eq_true, decide_eq_true_eq]; omega)]
  · obtain ⟨hm, he⟩ := h
    have hv : 0 < p.videoFiles.length :=
      lt_of_lt_of_le (Nat.pos_of_ne_zero hm) (List.length_filter_le _ _)
    simp only [paAnalyzeDirectoryType]
    rw [if_pos hv]
    rw [if_pos (by simp only [Bool.and_eq_true, decide_eq_true_eq]; omega)]
  · obtain ⟨hm, he⟩ := h
    have hv : 0 < p.videoFiles.length :=
      lt_of_lt_of_le (Nat.pos_of_ne_zero he) (List.length_filter_le _ _)
    simp only [paAnalyzeDirectoryType]
    rw [if_pos hv]
    rw [if_neg (by simp only [Bool.and_eq_true, decide_eq_true_eq, not_and]; omega)]
    rw [if_pos (by simp only [Bool.and_eq_true, decide_eq_true_eq]; omega)]
  · obtain ⟨hv, hs⟩ := h
    simp [paAnalyzeDirectoryType, hv, hs]

/-- A concrete directory with 3 movie-typed and 1 episode-typed video files,
all metadata produced by `_analyzeFileName`. -/
def c6PathInfo : PAPathInfo :=
  { path := "/m", depth := 0, type := "unknown", items := [],
    videoFiles := ["A.mkv", "B.mkv", "C.mkv", "D.S01E01.mkv"].map (fun n =>
      { name := n, is_dir := false, path := "/m/" ++ n,
        metadata := paAnalyzeFileName n }),
    subdirectories := [] }

/-- C6 counterexample: with strictly more movie evidence (3 vs 1) the verdict
is `mixed_content`, not a movie verdict — the tallies are not compared. -/
theorem c6_counterexample :
    paMovieTally c6PathInfo = 3 ∧ paEpisodeTally c6PathInfo = 1 ∧
    paAnalyzeDirectoryType c6PathInfo = "mixed_content" := by decide

/-- C6 witness. -/
theorem c6_witness : paAnalyzeDirectoryType c6PathInfo = "mixed_content" :=
  (c6_verdict_by_zero_nonzero c6PathInfo).1 ⟨by decide, by decide⟩

theorem filter_head?_eq_find? (p : α → Bool) :
    ∀ l : List α, (l.filter p).head? = l.find? p := by
  intro l
  induction l with
  | nil => rfl
  | cons x xs ih =>
    by_cases h : p x = true
    · simp [List.filter_cons, List.find?_cons, h]
    · simp [List.filter_cons, List.find?_cons, h, ih]

theorem selectMainVersion_eq_find (items : List CItem) :
    selectMainVersion items =
      ((items.find? (fun v => !v.files.isEmpty)).or
        ((items.find? (fun v => !v.seasons.isEmpty)).or items.head?)) := by
  unfold selectMainVersion
  rw [← filter_head?_eq_find?, ← filter_head?_eq_find?]
  cases h1 : items.filter (fun v => !v.files.isEmpty) with
  | cons m t => simp [h1]
  | nil =>
    cases h2 : items.filter (fun v => !v.seasons.isEmpty) with
    | cons m t => simp [h1, h2]
    | nil => simp [h1, h2]

/-- C3: for every group of more than one entry sharing a `(title, media_type)`
key, the merge emits an aggregated item whose main version is the first member
with nonempty `files`, else the first with nonempty `seasons`, else the first
member in discovery order; `aggregated_count` is the group size and exactly
one listed version is marked `is_main`. -/
theorem c3_version_group_merge (contentList : List CItem) (k : String) (items : List CItem)
    (hmem : (k, items) ∈ groupsOf contentList) (hlen : 1 < items.length) :
    ∃ agg,
      mkAggregatedItem items = some agg ∧
      AggOut.agg agg ∈ aggregateSameNameContent contentList ∧
      agg.aggregated_count = items.length ∧
      agg.versions.countP (fun v => v.is_main) = 1 ∧
      some agg.base =
        ((items.find? (fun v => !v.files.isEmpty)).or
          ((items.find? (fun v => !v.seasons.isEmpty)).or items.head?)) := by
  match items, hlen with
  | a :: b :: rest, _ =>
    have hsel := selectMainVersion_eq_find (a :: b :: rest)
    have hsome : (selectMainVersion (a :: b :: rest)).isSome := by
      rw [hsel]
      cases h1 : (a :: b :: rest).find? (fun v => !v.files.isEmpty) with
      | some m => simp
      | none =>
        cases h2 : (a :: b :: rest).find? (fun v => !v.seasons.isEmpty) with
        | some m => simp
        | none => simp
    obtain ⟨mv, hmv⟩ := Option.isSome_iff_exists.mp hsome
    refine ⟨{ base := mv
              versions := mkVersion mv true ::
                ((a :: b :: rest).filter (fun i => i.id ≠ mv.id)).map
                  (fun v => mkVersion v false)
              is_aggregated := true
              aggregated_count := (a :: b :: rest).length }, ?_, ?_, rfl, ?_, ?_⟩
    · simp [mkAggregatedItem, hmv]
    · unfold aggregateSameNameContent
      rw [List.mem_flatMap]
      refine ⟨(k, a :: b :: rest), hmem, ?_⟩
      simp [mkAggregatedItem, hmv]
    · simp only [List.countP_cons]
      have h0 :
          (((a :: b :: rest).filter (fun i => i.id ≠ mv.id)).map
            (fun v => mkVersion v false)).countP (fun v => v.is_main) = 0 := by
        rw [List.countP_eq_zero]
        intro v hv
        simp only [List.mem_map] at hv
        obtain ⟨w, _, rfl⟩ := hv
        simp [mkVersion]
      rw [h0]
      simp [mkVersion]
    · rw [← hsel, hmv]

/-- Three enriched "Dune" movie candidates; only the second has files. -/
def duneA : CItem := { id := "movie_1", title := "Dune", media_type := "movie" }

def duneB : CItem :=
  { id := "movie_2", title := "Dune", media_type := "movie", files := ["Dune.2021.mkv"] }

def duneC : CItem := { id := "movie_3", title := "Dune", media_type := "movie" }

/-- C3 witness: the spec's Pass-B example — three same-key candidates where
only one has files. -/
theorem c3_witness :
    ∃ agg,
      mkAggregatedItem [duneA, duneB, duneC] = some agg ∧
      AggOut.agg agg ∈ aggregateSameNameContent [duneA, duneB, duneC] ∧
      agg.aggregated_count = [duneA, duneB, duneC].length ∧
      agg.versions.countP (fun v => v.is_main) = 1 ∧
      some agg.base =
        (([duneA, duneB, duneC].find? (fun v => !v.files.isEmpty)).or
          (([duneA, duneB, duneC].find? (fun v => !v.seasons.isEmpty)).or
            [duneA, duneB, duneC].head?)) :=
  c3_version_group_merge [duneA, duneB, duneC] "Dune_movie" [duneA, duneB, duneC]
    (by decide) (by decide)

theorem jsTruthyNat_ne_none {o : Option Nat} (h : jsTruthyNat o = true) : o ≠ none := by
  cases o with
  | none => simp [jsTruthyNat] at h
  | some n => simp

theorem correctTvShow_shape (x : Entry8) :
    (correctTvShow x).seasons ≠ none ∧ (correctTvShow x).episode_count ≠ none := by
  simp only [correctTvShow]
  split <;>
  · split
    · next hT =>
      cases hx : x.seasons with
      | none =>
        simp only [hx] at hT ⊢
        exact ⟨by simp, jsTruthyNat_ne_none hT⟩
      | some s =>
        simp only [hx] at hT ⊢
        exact ⟨by simp [hx], jsTruthyNat_ne_none hT⟩
    · cases hx : x.seasons with
      | none => simp [hx]
      | some s => simp [hx]

/-- C8 (amended): the final split keeps movie records free of `seasons`,
`episode_count`, `number_of_seasons` and `number_of_episodes` (they are
deleted), and gives every TV record a `seasons` field and an `episode_count`
field; but `files` fields are left untouched on the TV side — TV records
keep whatever `files` list they carry (the pipeline deliberately attaches an
empty one), so "no bare files on TV records" does not hold (see the
counterexample). -/
theorem c8_split_shapes (allContent : List Entry8) :
    (∀ e ∈ finalCorrectedMovies allContent,
      e.seasons = none ∧ e.episode_count = none ∧
      e.number_of_seasons = none ∧ e.number_of_episodes = none) ∧
    (∀ e ∈ finalCorrectedTvShows allContent,
      e.seasons ≠ none ∧ e.episode_count ≠ none) := by
  constructor
  · intro e he
    simp only [finalCorrectedMovies, List.mem_map] at he
    obtain ⟨x, _, rfl⟩ := he
    simp only [correctMovie]
    split <;> exact ⟨rfl, rfl, rfl, rfl⟩
  · intro e he
    simp only [finalCorrectedTvShows, List.mem_map] at he
    obtain ⟨x, _, rfl⟩ := he
    exact correctTvShow_shape x

/-- A tv-typed record carrying a nonempty `files` list, and a movie-typed
record with no `files` field at all. -/
def c8TvLeak : Entry8 :=
  { id := "tv_9", media_type := some "tv", files := some ["f.mkv"], seasons := some [] }

def c8MovieNoFiles : Entry8 := { id := "movie_7", media_type := some "movie" }

/-- C8 counterexample: the TV-side correction does not remove `files` — a tv
record with a nonempty `files` list keeps it; and the movie-side correction
does not create a `files` field, so a movie record can lack one. -/
theorem c8_counterexample :
    (finalCorrectedTvShows [c8TvLeak]).map (fun e => e.files) = [some ["f.mkv"]] ∧
    (finalCorrectedMovies [c8MovieNoFiles]).map (fun e => e.files) = [none] := by decide

/-- C8 witness. -/
theorem c8_witness :
    (correctMovie c8MovieNoFiles).seasons = none ∧
    (correctMovie c8MovieNoFiles).episode_count = none ∧
    (correctMovie c8MovieNoFiles).number_of_seasons = none ∧
    (correctMovie c8MovieNoFiles).number_of_episodes = none :=
  (c8_split_shapes [c8MovieNoFiles]).1 (correctMovie c8MovieNoFiles) (by decide)

theorem getSeasonEpisodesLoop_episode_none (baseUrl seasonPath : String) :
    ∀ (items : List AItem) (acc : List MEpisode),
      (∀ e ∈ acc, e.episode = none) →
      ∀ e ∈ getSeasonEpisodesLoop baseUrl seasonPath items acc, e.episode = none := by
  intro items
  induction items with
  | nil => intro acc hacc e he; exact hacc e he
  | cons item rest ih =>
    intro acc hacc e he
    simp only [getSeasonEpisodesLoop] at he
    split at he
    · split at he
      · refine ih _ ?_ e he
        intro e' he'
        rcases List.mem_append.mp he' with h | h
        · exact hacc e' h
        · simp only [List.mem_singleton] at h
          subst h
          rfl
      · refine ih _ ?_ e he
        intro e' he'
        rcases List.mem_append.mp he' with h | h
        · exact hacc e' h
        · simp only [List.mem_singleton] at h
          subst h
          rfl
    · exact ih acc hacc e he

theorem pairwise_episodeSortLe_of_none (l : List MEpisode)
    (h : ∀ e ∈ l, e.episode = none) :
    l.Pairwise (fun a b => episodeSortLe a b = true) := by
  induction l with
  | nil => exact List.Pairwise.nil
  | cons x xs ih =>
    refine List.pairwise_cons.mpr ⟨?_, ih (fun e he => h e (List.mem_cons_of_mem x he))⟩
    intro y hy
    have hx := h x (List.mem_cons_self x xs)
    have hyy := h y (List.mem_cons_of_mem x hy)
    simp [episodeSortLe, hx, hyy]

/-- C1 (amended): after the season-fragment merge, every series has its
seasons sorted ascending by the `(season || 1)` key — but fragments sharing a
`seasonNumber` are not deduplicated (the stable sort keeps both), and the
episodes inside a `_getSeasonEpisodes` fragment stay in directory-listing
order: the episode sort is the identity, because its comparator reads the
absent `episode` property (the records carry `episode_number`), so every key
is 0.  The claim's deduplication and episode-ordering assertions fail on the
code (see the counterexample). -/
theorem c1_merge_order :
    (∀ (tvShows : List MShow) (series : MSeries), series ∈ mergeTvSeasons tvShows →
      series.seasons.Pairwise (fun a b => seasonSortLe a b = true)) ∧
    (∀ (items : List AItem) (baseUrl seasonPath : String),
      getSeasonEpisodes (.ok items) baseUrl seasonPath =
        getSeasonEpisodesLoop baseUrl seasonPath items []) := by
  constructor
  · intro tvShows series hmem
    simp only [mergeTvSeasons, List.mem_map] at hmem
    obtain ⟨kv, _, rfl⟩ := hmem
    show (finalizeSeries kv.2).seasons.Pairwise _
    simp only [finalizeSeries]
    exact jsSortBy_pairwise seasonSortLe
      (fun a b c hab hbc => by
        simp only [seasonSortLe, decide_eq_true_eq] at hab hbc ⊢
        exact le_trans hab hbc)
      (fun a b hab => by
        simp only [seasonSortLe, decide_eq_false_iff_not, decide_eq_true_eq] at hab ⊢
        omega)
      kv.2.seasons
  · intro items baseUrl seasonPath
    show jsSortBy episodeSortLe (getSeasonEpisodesLoop baseUrl seasonPath items []) = _
    exact jsSortBy_of_pairwise _ _ (pairwise_episodeSortLe_of_none _
      (getSeasonEpisodesLoop_episode_none baseUrl seasonPath items [] (by simp)))

/-- Two listings of the same series under different roots; the first lists
episode 2 before episode 1. -/
def c1Listing1 : List AItem :=
  [⟨"ShowA.E02.mkv", false, none, none⟩, ⟨"ShowA.E01.mkv", false, none, none⟩]

def c1Listing2 : List AItem := [⟨"ShowA.E01.mkv", false, none, none⟩]

/-- A season folder-derived show, seasons built exactly as
`_analyzeSubdirectory` builds them from `_getSeasonEpisodes`. -/
def c1Show1 : MShow :=
  { title := "ShowA", path := "/r1/ShowA/S01",
    seasons := [⟨1, getSeasonEpisodes (.ok c1Listing1) "http://alist" "/r1/ShowA/S01"⟩] }

def c1Show2 : MShow :=
  { title := "ShowA", path := "/r2/ShowA/S01",
    seasons := [⟨1, getSeasonEpisodes (.ok c1Listing2) "http://alist" "/r2/ShowA/S01"⟩] }

/-- C1 counterexample: merging the two fragments of series "ShowA" leaves TWO
fragments with `seasonNumber` 1 (no deduplication), and the first fragment's
episodes stand in listing order `[2, 1]`, not ascending by episode number. -/
theorem c1_counterexample :
    ((mergeTvSeasons [c1Show1, c1Show2]).map (fun s => s.seasons.map (fun f => f.season)) =
      [[1, 1]]) ∧
    ((mergeTvSeasons [c1Show1, c1Show2]).map (fun s =>
        s.seasons.map (fun f => f.episodes.map (fun e => e.episode_number))) =
      [[[2, 1], [1]]]) := by decide

/-- C1 witness. -/
theorem c1_witness :
    ((mergeTvSeasons [c1Show1, c1Show2]).getD 0 ⟨"", "", [], [], none⟩).seasons.Pairwise
      (fun a b => seasonSortLe a b = true) :=
  c1_merge_order.1 [c1Show1, c1Show2] _ (by decide)

/-- Turn listing failures into empty listings. -/
def maskListingFailures (listing : String → Except Unit (List AItem)) :
    String → Except Unit (List AItem) :=
  fun p =>
    match listing p with
    | .error _ => .ok []
    | .ok items => .ok items

theorem paProcessItems_congr (w1 w2 : String → PAAnalysis → PAAnalysis)
    (hw : ∀ p a, w1 p a = w2 p a) (currentPath : String) :
    ∀ (items : List AItem) (st : PAPathInfo × PAAnalysis),
      paProcessItems w1 currentPath items st = paProcessItems w2 currentPath items st := by
  intro items
  induction items with
  | nil => intro st; rfl
  | cons item rest ih =>
    intro st
    obtain ⟨pathInfo, analysis⟩ := st
    simp only [paProcessItems]
    split
    · split
      · exact ih _
      · rw [hw]
        exact ih _
    · split
      · exact ih _
      · exact ih _

/-- C9: a failed `listDirectory` call is equivalent to an empty listing — the
walk over a listing with failures equals the walk over the same listing with
every failing path replaced by zero entries.  The accumulator (categories,
path map, statistics) is untouched at the failing path, the traversal never
aborts, and the parent directory's record is built from the siblings that
succeeded. -/
theorem c9_failure_equals_empty (listing : String → Except Unit (List AItem))
    (maxDepth : Nat) :
    ∀ (fuel : Nat) (path : String) (depth : Nat) (analysis : PAAnalysis),
      paAnalyzeRecursive (maskListingFailures listing) maxDepth fuel path depth analysis =
        paAnalyzeRecursive listing maxDepth fuel path depth analysis := by
  intro fuel
  induction fuel with
  | zero => intro path depth analysis; rfl
  | succ fuel ih =>
    intro path depth analysis
    simp only [paAnalyzeRecursive]
    by_cases hd : depth > maxDepth
    · rw [if_pos hd, if_pos hd]
    · rw [if_neg hd, if_neg hd]
      cases hl : listing path with
      | error e =>
        simp [maskListingFailures, hl]
      | ok items =>
        simp only [maskListingFailures, hl]
        by_cases hi : items.isEmpty
        · rw [if_pos hi, if_pos hi]
        · rw [if_neg hi, if_neg hi]
          rw [paProcessItems_congr
            (fun p a => paAnalyzeRecursive (maskListingFailures listing) maxDepth fuel p
              (depth + 1) a)
            (fun p a => paAnalyzeRecursive listing maxDepth fuel p (depth + 1) a)
            (fun p a => ih p (depth + 1) a)]
